import Mathlib

/-!
Verification of aws/resource_aws_budgets_budget_action.go.

Go's dynamic values (interface types, nested configuration maps) are
embedded as the inductive type GoValue; a Go map of type
map[string]interface is an association list (its keys are distinct in
every value the program builds).  Go errors are the inductive GoErr; a
Go panic is modelled as a distinguished error value, which is faithful
here because none of the embedded functions recovers from a panic, so
it propagates outward exactly like an error.  Machine floats only pass
through the code unchanged (no arithmetic is performed on them), so
they are embedded as rationals.
-/

inductive GoValue where
  | nil
  | str (s : String)
  | float (q : Rat)
  | list (l : List GoValue)
  | set (l : List GoValue)
  | map (m : List (String × GoValue))

abbrev GoMap := List (String × GoValue)

/-- Go map indexing: a missing key yields the zero value of the element
type, which for interface values is nil. -/
def lookupGo (m : GoMap) (k : String) : GoValue :=
  match m.lookup k with
  | some v => v
  | none => GoValue.nil

/-- Comma-ok type assertion to string. -/
def GoValue.asString : GoValue → Option String
  | GoValue.str s => some s
  | _ => none

/-- Comma-ok type assertion to float64. -/
def GoValue.asFloat : GoValue → Option Rat
  | GoValue.float q => some q
  | _ => none

/-- Comma-ok type assertion to a slice of interface values. -/
def GoValue.asList : GoValue → Option (List GoValue)
  | GoValue.list l => some l
  | _ => none

/-- Comma-ok type assertion to a schema set. -/
def GoValue.asSet : GoValue → Option (List GoValue)
  | GoValue.set l => some l
  | _ => none

/-- Go errors.  The wrapped constructor models fmt.Errorf with the w
verb; panic models a failed hard type assertion. -/
inductive GoErr where
  | panic (text : String)
  | message (text : String)
  | awsError (code : String) (text : String)
  | notFoundError (text : String)
  | wrapped (context : String) (inner : GoErr)
deriving DecidableEq, Repr

instance exceptDecEq {ε α : Type} [DecidableEq ε] [DecidableEq α] : DecidableEq (Except ε α) := fun x y =>
  match x, y with
  | Except.ok a, Except.ok b =>
    if h : a = b then Decidable.isTrue (by rw [h]) else Decidable.isFalse (fun hh => h (Except.ok.inj hh))
  | Except.error a, Except.error b =>
    if h : a = b then Decidable.isTrue (by rw [h]) else Decidable.isFalse (fun hh => h (Except.error.inj hh))
  | Except.ok _, Except.error _ => Decidable.isFalse (fun hh => Except.noConfusion hh)
  | Except.error _, Except.ok _ => Decidable.isFalse (fun hh => Except.noConfusion hh)

/-- Hard (single-result) type assertion to map[string]interface, as in
m := l[0].(map[string]interface); panics on any other value. -/
def GoValue.asMap : GoValue → Except GoErr GoMap
  | GoValue.map m => Except.ok m
  | _ => Except.error (GoErr.panic ("interface conversion: interface is not a map"))

/-- tfawserr.ErrCodeEquals: true when the error, possibly after
unwrapping, is a vendor error with the given code. -/
def ErrCodeEquals : GoErr → String → Bool
  | GoErr.awsError c _, code => c == code
  | GoErr.wrapped _ e, code => ErrCodeEquals e code
  | _, _ => false

/-- tfresource.NotFound: true when the error, possibly after
unwrapping, is a resource not-found error. -/
def NotFound : GoErr → Bool
  | GoErr.notFoundError _ => true
  | GoErr.wrapped _ e => NotFound e
  | _ => false

/-- Vendor SDK error-code constant budgets.ErrCodeAccessDeniedException. -/
def ErrCodeAccessDeniedException : String := "AccessDeniedException"

/-- Vendor SDK error-code constant budgets.ErrCodeNotFoundException. -/
def ErrCodeNotFoundException : String := "NotFoundException"

/-- aws.StringValue: dereference a possibly-nil string pointer, nil
becoming the empty string. -/
def stringValue : Option String → String
  | some s => s
  | none => ""

/-- aws.Float64Value: dereference a possibly-nil float pointer, nil
becoming zero. -/
def float64Value : Option Rat → Rat
  | some q => q
  | none => 0

/-! Vendor SDK structs (service/budgets).  Pointer fields are Options;
the zero struct has every field nil. -/

structure ActionThreshold where
  actionThresholdType : Option String
  actionThresholdValue : Option Rat
deriving DecidableEq, Repr

structure SsmActionDefinition where
  actionSubType : Option String
  instanceIds : Option (List String)
  region : Option String
deriving DecidableEq, Repr

structure ScpActionDefinition where
  policyId : Option String
  targetIds : Option (List String)
deriving DecidableEq, Repr

structure IamActionDefinition where
  policyArn : Option String
  groups : Option (List String)
  roles : Option (List String)
  users : Option (List String)
deriving DecidableEq, Repr

structure Definition where
  iamActionDefinition : Option IamActionDefinition
  scpActionDefinition : Option ScpActionDefinition
  ssmActionDefinition : Option SsmActionDefinition
deriving DecidableEq, Repr

structure Subscriber where
  address : Option String
  subscriptionType : Option String
deriving DecidableEq, Repr

/-- budgets.Action, as returned by the finder during read (named with
the service prefix because the bare SDK name is taken in this
development's ambient library). -/
structure BudgetsAction where
  actionThreshold : Option ActionThreshold
  actionType : Option String
  approvalModel : Option String
  definition : Option Definition
  executionRoleArn : Option String
  notificationType : Option String
  status : Option String
  subscribers : List Subscriber
deriving DecidableEq, Repr

structure CreateBudgetActionOutput where
  actionId : Option String
  budgetName : Option String
deriving DecidableEq, Repr

/-- Models the provider-wide expandStringSet/expandStringList helpers
(defined in the provider's structure.go, outside the files at hand):
each set element is converted with a comma-ok string assertion, and
empty strings are skipped. -/
def expandStringSet (l : List GoValue) : List String :=
  l.filterMap fun v =>
    match v.asString with
    | some s => if s ≠ "" then some s else none
    | none => none

/-- Models the provider-wide flattenStringSet helper: a string slice
becomes a schema set of its values. -/
def flattenStringSet (l : List String) : GoValue :=
  GoValue.set (l.map GoValue.str)

/-! Expand helpers (source lines 387-526).  Each takes the raw
configuration list and returns the SDK struct pointer, nil when the
list is empty or its first element is nil. -/

def expandAwsBudgetsBudgetActionActionThreshold : List GoValue → Except GoErr (Option ActionThreshold)
  | [] => Except.ok none
  | GoValue.nil :: _ => Except.ok none
  | v :: _ => do
    let m ← v.asMap
    let t : Option String :=
      match (lookupGo m ("action_threshold_type")).asString with
      | some s => if s ≠ "" then some s else none
      | none => none
    let value : Option Rat :=
      match (lookupGo m ("action_threshold_value")).asFloat with
      | some q => some q
      | none => none
    Except.ok (some { actionThresholdType := t, actionThresholdValue := value })

def expandAwsBudgetsBudgetActionActionSsmActionDefinition : List GoValue → Except GoErr (Option SsmActionDefinition)
  | [] => Except.ok none
  | GoValue.nil :: _ => Except.ok none
  | v :: _ => do
    let m ← v.asMap
    let actionSubType : Option String :=
      match (lookupGo m ("action_sub_type")).asString with
      | some s => if s ≠ "" then some s else none
      | none => none
    let region : Option String :=
      match (lookupGo m ("region")).asString with
      | some s => if s ≠ "" then some s else none
      | none => none
    let instanceIds : Option (List String) :=
      match (lookupGo m ("instance_ids")).asSet with
      | some v => if 0 < v.length then some (expandStringSet v) else none
      | none => none
    Except.ok (some { actionSubType := actionSubType, instanceIds := instanceIds, region := region })

def expandAwsBudgetsBudgetActionActionScpActionDefinition : List GoValue → Except GoErr (Option ScpActionDefinition)
  | [] => Except.ok none
  | GoValue.nil :: _ => Except.ok none
  | v :: _ => do
    let m ← v.asMap
    let policyId : Option String :=
      match (lookupGo m ("policy_id")).asString with
      | some s => if s ≠ "" then some s else none
      | none => none
    let targetIds : Option (List String) :=
      match (lookupGo m ("target_ids")).asSet with
      | some v => if 0 < v.length then some (expandStringSet v) else none
      | none => none
    Except.ok (some { policyId := policyId, targetIds := targetIds })

def expandAwsBudgetsBudgetActionActionIamActionDefinition : List GoValue → Except GoErr (Option IamActionDefinition)
  | [] => Except.ok none
  | GoValue.nil :: _ => Except.ok none
  | v :: _ => do
    let m ← v.asMap
    let policyArn : Option String :=
      match (lookupGo m ("policy_arn")).asString with
      | some s => if s ≠ "" then some s else none
      | none => none
    let groups : Option (List String) :=
      match (lookupGo m ("groups")).asSet with
      | some v => if 0 < v.length then some (expandStringSet v) else none
      | none => none
    let roles : Option (List String) :=
      match (lookupGo m ("roles")).asSet with
      | some v => if 0 < v.length then some (expandStringSet v) else none
      | none => none
    let users : Option (List String) :=
      match (lookupGo m ("users")).asSet with
      | some v => if 0 < v.length then some (expandStringSet v) else none
      | none => none
    Except.ok (some { policyArn := policyArn, groups := groups, roles := roles, users := users })

/-- One conditional branch assignment inside
expandAwsBudgetsBudgetActionActionDefinition: the comma-ok assertion of
the branch key to a list, guarded by the list being nonempty, then the
branch expander; otherwise the branch stays at its zero value nil. -/
def expandDefinitionBranch {β : Type} (m : GoMap) (k : String)
    (f : List GoValue → Except GoErr (Option β)) : Except GoErr (Option β) :=
  match (lookupGo m k).asList with
  | some v => if 0 < v.length then f v else Except.ok none
  | none => Except.ok none

def expandAwsBudgetsBudgetActionActionDefinition : List GoValue → Except GoErr (Option Definition)
  | [] => Except.ok none
  | GoValue.nil :: _ => Except.ok none
  | v :: _ => do
    let m ← v.asMap
    let ssm ← expandDefinitionBranch m ("ssm_action_definition") expandAwsBudgetsBudgetActionActionSsmActionDefinition
    let scp ← expandDefinitionBranch m ("scp_action_definition") expandAwsBudgetsBudgetActionActionScpActionDefinition
    let iam ← expandDefinitionBranch m ("iam_action_definition") expandAwsBudgetsBudgetActionActionIamActionDefinition
    Except.ok (some { iamActionDefinition := iam, scpActionDefinition := scp, ssmActionDefinition := ssm })

def expandAwsBudgetsBudgetActionSubscriber (l : List GoValue) : Except GoErr (List Subscriber) :=
  if l.length = 0 then Except.ok []
  else l.mapM fun mv => do
    let raw ← mv.asMap
    let address : Option String :=
      match (lookupGo raw ("address")).asString with
      | some s => if s ≠ "" then some s else none
      | none => none
    let subscriptionType : Option String := (lookupGo raw ("subscription_type")).asString
    Except.ok ({ address := address, subscriptionType := subscriptionType } : Subscriber)

/-! Flatten helpers (source lines 528-629).  A Go nil struct pointer is
none; the Go return type, a slice of maps, is a list of GoMaps. -/

def flattenAwsBudgetsBudgetActionSubscriber (configured : List Subscriber) : List GoMap :=
  configured.map fun raw =>
    [(("address"), GoValue.str (stringValue raw.address)),
     (("subscription_type"), GoValue.str (stringValue raw.subscriptionType))]

def flattenAwsBudgetsBudgetActionActionThreshold : Option ActionThreshold → List GoMap
  | none => []
  | some lt =>
    [[(("action_threshold_type"), GoValue.str (stringValue lt.actionThresholdType)),
      (("action_threshold_value"), GoValue.float (float64Value lt.actionThresholdValue))]]

def flattenAwsBudgetsBudgetActionIamActionDefinition : Option IamActionDefinition → List GoMap
  | none => []
  | some lt =>
    let attrs : GoMap := [(("policy_arn"), GoValue.str (stringValue lt.policyArn))]
    let attrs : GoMap :=
      match lt.users with
      | some us => if 0 < us.length then attrs ++ [(("users"), flattenStringSet us)] else attrs
      | none => attrs
    let attrs : GoMap :=
      match lt.roles with
      | some rs => if 0 < rs.length then attrs ++ [(("roles"), flattenStringSet rs)] else attrs
      | none => attrs
    let attrs : GoMap :=
      match lt.groups with
      | some gs => if 0 < gs.length then attrs ++ [(("groups"), flattenStringSet gs)] else attrs
      | none => attrs
    [attrs]

def flattenAwsBudgetsBudgetActionScpActionDefinition : Option ScpActionDefinition → List GoMap
  | none => []
  | some lt =>
    let attrs : GoMap := [(("policy_id"), GoValue.str (stringValue lt.policyId))]
    let attrs : GoMap :=
      match lt.targetIds with
      | some ts => if 0 < ts.length then attrs ++ [(("target_ids"), flattenStringSet ts)] else attrs
      | none => attrs
    [attrs]

def flattenAwsBudgetsBudgetActionSsmActionDefinition : Option SsmActionDefinition → List GoMap
  | none => []
  | some lt =>
    [[(("action_sub_type"), GoValue.str (stringValue lt.actionSubType)),
      (("instance_ids"), flattenStringSet (match lt.instanceIds with | some l => l | none => [])),
      (("region"), GoValue.str (stringValue lt.region))]]

def flattenAwsBudgetsBudgetActionDefinition : Option Definition → List GoMap
  | none => []
  | some lt =>
    let attrs : GoMap := []
    let attrs : GoMap :=
      match lt.ssmActionDefinition with
      | some _ => attrs ++ [(("ssm_action_definition"),
          GoValue.list ((flattenAwsBudgetsBudgetActionSsmActionDefinition lt.ssmActionDefinition).map GoValue.map))]
      | none => attrs
    let attrs : GoMap :=
      match lt.iamActionDefinition with
      | some _ => attrs ++ [(("iam_action_definition"),
          GoValue.list ((flattenAwsBudgetsBudgetActionIamActionDefinition lt.iamActionDefinition).map GoValue.map))]
      | none => attrs
    let attrs : GoMap :=
      match lt.scpActionDefinition with
      | some _ => attrs ++ [(("scp_action_definition"),
          GoValue.list ((flattenAwsBudgetsBudgetActionScpActionDefinition lt.scpActionDefinition).map GoValue.map))]
      | none => attrs
    [attrs]

/-! Field validators.  A validator returns its list of validation
errors; the empty list means the value is accepted.
validation.All runs every validator and concatenates the errors. -/

/-- validation.StringLenBetween: Go len is the byte length of the
UTF-8 encoding. -/
def StringLenBetween (minLen maxLen : Nat) (v : String) : List String :=
  if v.utf8ByteSize < minLen ∨ maxLen < v.utf8ByteSize then
    [("expected length to be in the range")]
  else []

/-- The regexp at source line 84 applied as Go MatchString.  MatchString
is unanchored (it reports whether the pattern matches anywhere in the
string), and the character-class pattern matches at any position holding
one character that is neither a colon nor a backslash; so the whole
regexp matches exactly when some character of the string lies outside
that two-character set. -/
def budgetNameRegexMatches (v : String) : Bool :=
  v.data.any fun c => ¬(c = ':' ∨ c = '\\')

/-- validation.StringMatch with the budget-name regexp and message from
source lines 84-85. -/
def StringMatchBudgetName (v : String) : List String :=
  if budgetNameRegexMatches v then [] else [("The colon and backslash characters are not allowed.")]

/-- The budget_name ValidateFunc (source lines 82-85):
validation.All of the length check and the regexp check. -/
def validateBudgetName (v : String) : List String :=
  StringLenBetween 1 100 v ++ StringMatchBudgetName v

/-- The regexp at source line 196 applied as Go MatchString.  Its
top-level operator is a Kleene star, which matches the empty string,
and MatchString is unanchored, so the regexp matches the empty
substring at the start of every input: it accepts every string and in
particular never rejects a line break. -/
def subscriberAddressRegexMatches (_v : String) : Bool :=
  true

/-- validation.StringMatch with the subscriber-address regexp and
message from source lines 196. -/
def StringMatchSubscriberAddress (v : String) : List String :=
  if subscriberAddressRegexMatches v then [] else [("Can not contain line breaks.")]

/-- The subscriber address ValidateFunc (source lines 194-197). -/
def validateSubscriberAddress (v : String) : List String :=
  StringLenBetween 1 2147483647 v ++ StringMatchSubscriberAddress v

/-! The composite resource identifier. -/

/-- Modelled from the spec: the separator of the composite identifier
string accountID/actionID/budgetName built by
tfbudgets.BudgetActionCreateResourceID (package
aws/internal/service/budgets, whose file is not among the sources at
hand; only its call sites are). -/
def budgetActionResourceIDSeparator : Char := '/'

/-- Join character lists with a separator character (strings.Join). -/
def joinChar (sep : Char) : List (List Char) → List Char
  | [] => []
  | [x] => x
  | x :: y :: xs => x ++ sep :: joinChar sep (y :: xs)

/-- Split a character list at every occurrence of the separator
(strings.Split). -/
def splitChar (sep : Char) : List Char → List (List Char)
  | [] => [[]]
  | c :: cs =>
    if c = sep then [] :: splitChar sep cs
    else
      match splitChar sep cs with
      | [] => [[c]]
      | r :: rs => (c :: r) :: rs

/-- Modelled from the spec: tfbudgets.BudgetActionCreateResourceID
(not among the sources at hand) builds the composite identifier by
joining the account ID, action ID and budget name with the
separator. -/
def BudgetActionCreateResourceID (accountID actionID budgetName : String) : String :=
  String.mk (joinChar budgetActionResourceIDSeparator [accountID.data, actionID.data, budgetName.data])

/-- Modelled from the spec: tfbudgets.BudgetActionParseResourceID
(not among the sources at hand) splits the composite identifier at the
separator and succeeds when that yields exactly the three
components. -/
def BudgetActionParseResourceID (id : String) : Except GoErr (String × String × String) :=
  match (splitChar budgetActionResourceIDSeparator id.data).map String.mk with
  | [a, b, c] => Except.ok (a, b, c)
  | _ => Except.error (GoErr.message ("unexpected format for ID (" ++ id ++ "), expected AccountID/ActionID/BudgetName"))

/-! Lifecycle functions.  Each vendor call is a parameter holding the
result the vendor returned for it; d, the resource data, is passed
piecewise (identifier, new-resource flag, field values, change set). -/

/-- The state attributes read writes back with d.Set on success. -/
structure BudgetActionState where
  accountId : String
  actionId : String
  actionThreshold : List GoMap
  actionType : Option String
  approvalModel : Option String
  budgetName : String
  definition : List GoMap
  executionRoleArn : Option String
  notificationType : Option String
  status : Option String
  subscriber : List GoMap
  arn : String

/-- Outcome of read: removed models d.SetId followed by a nil
return when the resource has disappeared, ok a nil return with the
state written, err a returned error. -/
inductive ReadResult where
  | removed
  | ok (state : BudgetActionState)
  | err (e : GoErr)

/-- resourceAwsBudgetsBudgetActionRead (source lines 252-305).
finderResult is what finder.ActionByAccountIDActionIDAndBudgetName
returned; partition and accountid come from the provider client.
d.Set on a valid schema cannot fail, so writing the state always
succeeds. -/
def resourceAwsBudgetsBudgetActionRead (id : String) (isNewResource : Bool)
    (partition accountid : String) (finderResult : Except GoErr BudgetsAction) : ReadResult :=
  match BudgetActionParseResourceID id with
  | Except.error e => ReadResult.err e
  | Except.ok (accountID, actionID, budgetName) =>
    match finderResult with
    | Except.error e =>
      if ¬isNewResource ∧ NotFound e then ReadResult.removed
      else ReadResult.err (GoErr.wrapped ("error reading Budget Action (" ++ id ++ ")") e)
    | Except.ok output =>
      ReadResult.ok
        { accountId := accountID
          actionId := actionID
          actionThreshold := flattenAwsBudgetsBudgetActionActionThreshold output.actionThreshold
          actionType := output.actionType
          approvalModel := output.approvalModel
          budgetName := budgetName
          definition := flattenAwsBudgetsBudgetActionDefinition output.definition
          executionRoleArn := output.executionRoleArn
          notificationType := output.notificationType
          status := output.status
          subscriber := flattenAwsBudgetsBudgetActionSubscriber output.subscribers
          arn := "arn:" ++ partition ++ ":budgets::" ++ accountid ++
            ":budget/" ++ budgetName ++ "/action/" ++ actionID }

/-- resourceAwsBudgetsBudgetActionDelete (source lines 360-385).
deleteResult is what conn.DeleteBudgetAction returned. -/
def resourceAwsBudgetsBudgetActionDelete (id : String)
    (deleteResult : Except GoErr Unit) : Except GoErr Unit :=
  match BudgetActionParseResourceID id with
  | Except.error e => Except.error e
  | Except.ok _ =>
    match deleteResult with
    | Except.ok _ => Except.ok ()
    | Except.error e =>
      if ErrCodeEquals e ErrCodeNotFoundException then Except.ok ()
      else Except.error (GoErr.wrapped ("error deleting Budget Action (" ++ id ++ ")") e)

/-- The request struct budgets.UpdateBudgetActionInput; its zero value
has every field nil. -/
structure UpdateBudgetActionInput where
  accountId : Option String
  actionId : Option String
  budgetName : Option String
  actionThreshold : Option ActionThreshold
  approvalModel : Option String
  definition : Option Definition
  executionRoleArn : Option String
  notificationType : Option String
  subscribers : Option (List Subscriber)
deriving Repr

/-- The resource data seen by update: identifier, change set and
current field values. -/
structure ResourceData where
  id : String
  changed : String → Bool
  actionThreshold : List GoValue
  approvalModel : String
  definition : List GoValue
  executionRoleArn : String
  notificationType : String
  subscriber : List GoValue

/-- The construction of the UpdateBudgetActionInput request inside
resourceAwsBudgetsBudgetActionUpdate (source lines 310-344): the three
identifier components always, each remaining field only when
d.HasChange reports it changed. -/
def resourceAwsBudgetsBudgetActionUpdateInput (d : ResourceData) : Except GoErr UpdateBudgetActionInput :=
  match BudgetActionParseResourceID d.id with
  | Except.error e => Except.error e
  | Except.ok (accountID, actionID, budgetName) =>
    match (if d.changed ("action_threshold")
           then expandAwsBudgetsBudgetActionActionThreshold d.actionThreshold
           else Except.ok none) with
    | Except.error e => Except.error e
    | Except.ok actionThreshold =>
      match (if d.changed ("definition")
             then expandAwsBudgetsBudgetActionActionDefinition d.definition
             else Except.ok none) with
      | Except.error e => Except.error e
      | Except.ok definition =>
        match (if d.changed ("subscriber")
               then (match expandAwsBudgetsBudgetActionSubscriber d.subscriber with
                     | Except.error e => Except.error e
                     | Except.ok ss => Except.ok (some ss))
               else Except.ok none) with
        | Except.error e => Except.error e
        | Except.ok subscribers =>
          Except.ok
            { accountId := some accountID
              actionId := some actionID
              budgetName := some budgetName
              actionThreshold := actionThreshold
              approvalModel := if d.changed ("approval_model") then some d.approvalModel else none
              definition := definition
              executionRoleArn := if d.changed ("execution_role_arn") then some d.executionRoleArn else none
              notificationType := if d.changed ("notification_type") then some d.notificationType else none
              subscribers := subscribers }

/-- Modelled from the spec: tfresource.RetryWhenAwsErrCodeEquals
(package aws/internal/tfresource, not among the sources at hand) calls
the vendor operation repeatedly within the timeout, retrying exactly
while the returned error carries the given code, and otherwise
returning the operation's result; the finite trace lists the result of
each successive call, its length bounding how many calls fit in the
timeout, and the last entry is returned as-is when every earlier one
was retried. -/
def RetryWhenAwsErrCodeEquals {α : Type} (code : String) : List (Except GoErr α) → Except GoErr α
  | [] => Except.error (GoErr.message ("timeout"))
  | r :: rest =>
    match r, rest with
    | Except.ok a, _ => Except.ok a
    | Except.error e, [] => Except.error e
    | Except.error e, r2 :: rest2 =>
      if ErrCodeEquals e code then RetryWhenAwsErrCodeEquals code (r2 :: rest2)
      else Except.error e

/-- The CreateBudgetAction call inside
resourceAwsBudgetsBudgetActionCreate (source lines 231-237): the call
is retried on the AccessDeniedException code, and a final error is
returned wrapped with context. -/
def resourceAwsBudgetsBudgetActionCreateCall
    (trace : List (Except GoErr CreateBudgetActionOutput)) : Except GoErr CreateBudgetActionOutput :=
  match RetryWhenAwsErrCodeEquals ErrCodeAccessDeniedException trace with
  | Except.error e => Except.error (GoErr.wrapped ("error creating Budget Action") e)
  | Except.ok out => Except.ok out

/-- The branch key's value is one that does not make the branch
expander's hard map assertion panic: it is absent, not a list, an
empty list, or a list headed by nil or by a map.  Every configuration
the schema accepts satisfies this, since the branch element type is a
nested resource (a map). -/
def branchHeadOk (m : GoMap) (k : String) : Bool :=
  match (lookupGo m k).asList with
  | none => true
  | some [] => true
  | some (GoValue.nil :: _) => true
  | some (GoValue.map _ :: _) => true
  | some _ => false

/-- The branch key holds a nonempty list whose first element is a
(non-nil) map: exactly the configurations for which the expanded
Definition populates that branch. -/
def branchPopulated (m : GoMap) (k : String) : Bool :=
  match (lookupGo m k).asList with
  | some (GoValue.map _ :: _) => true
  | _ => false

/-- The number of non-nil branches of a Definition. -/
def Definition.populatedBranchCount (d : Definition) : Nat :=
  (if d.iamActionDefinition.isSome then 1 else 0) +
  (if d.scpActionDefinition.isSome then 1 else 0) +
  (if d.ssmActionDefinition.isSome then 1 else 0)

/-- A concrete resource data for exercising the update request
construction: approval_model and definition changed, everything else
unchanged. -/
def sampleUpdateData : ResourceData :=
  { id := ("012345678901/abcd1234/my-budget")
    changed := fun s => s == ("approval_model") || s == ("definition")
    actionThreshold := [GoValue.map [(("action_threshold_type"), GoValue.str ("PERCENTAGE")),
                                     (("action_threshold_value"), GoValue.float 100)]]
    approvalModel := ("AUTOMATIC")
    definition := [GoValue.map [(("ssm_action_definition"), GoValue.list
      [GoValue.map [(("action_sub_type"), GoValue.str ("STOP_EC2_INSTANCES")),
                    (("instance_ids"), GoValue.set [GoValue.str ("i-123")]),
                    (("region"), GoValue.str ("us-east-1"))]])]]
    executionRoleArn := ("arn:aws:iam::012345678901:role/budget-action")
    notificationType := ("ACTUAL")
    subscriber := [GoValue.map [(("address"), GoValue.str ("user@example.com")),
                                (("subscription_type"), GoValue.str ("EMAIL"))]] }

/-! Helper lemmas. -/

theorem exceptBind_ok {ε α β : Type} (a : α) (f : α → Except ε β) :
    ((Except.ok a : Except ε α) >>= f) = f a := rfl

theorem splitChar_no_sep (sep : Char) (xs : List Char) (h : sep ∉ xs) :
    splitChar sep xs = [xs] := by
  induction xs with
  | nil => rfl
  | cons c cs ih =>
    have hc : ¬(c = sep) := fun hh => h (hh ▸ List.mem_cons_self c cs)
    have hcs : sep ∉ cs := fun hh => h (List.mem_cons_of_mem c hh)
    simp [splitChar, hc, ih hcs]

theorem splitChar_append (sep : Char) (xs ys : List Char) (h : sep ∉ xs) :
    splitChar sep (xs ++ sep :: ys) = xs :: splitChar sep ys := by
  induction xs with
  | nil => simp [splitChar]
  | cons c cs ih =>
    have hc : ¬(c = sep) := fun hh => h (hh ▸ List.mem_cons_self c cs)
    have hcs : sep ∉ cs := fun hh => h (List.mem_cons_of_mem c hh)
    simp [splitChar, hc, ih hcs]

/-- Claim C1, counterexample: when the budget name itself contains the
separator character, parsing the composite identifier built from the
components does not return them (it fails instead), so the round-trip
does not hold for every account ID, action ID and budget name. -/
theorem BudgetActionResourceID_roundtrip_cex :
    BudgetActionParseResourceID
        (BudgetActionCreateResourceID ("012345678901") ("abcd1234") ("my/budget"))
      ≠ Except.ok (("012345678901"), ("abcd1234"), ("my/budget")) := by
  decide

/-- Claim C1 (amended): for every account ID, action ID and budget name
none of which contains the identifier separator character, parsing the
composite resource identifier built from them by
BudgetActionCreateResourceID with BudgetActionParseResourceID succeeds
and returns exactly those three components. -/
theorem BudgetActionResourceID_roundtrip (accountID actionID budgetName : String)
    (h1 : budgetActionResourceIDSeparator ∉ accountID.data)
    (h2 : budgetActionResourceIDSeparator ∉ actionID.data)
    (h3 : budgetActionResourceIDSeparator ∉ budgetName.data) :
    BudgetActionParseResourceID (BudgetActionCreateResourceID accountID actionID budgetName)
      = Except.ok (accountID, actionID, budgetName) := by
  show BudgetActionParseResourceID
      (String.mk (accountID.data ++ budgetActionResourceIDSeparator ::
        (actionID.data ++ budgetActionResourceIDSeparator :: budgetName.data)))
    = Except.ok (accountID, actionID, budgetName)
  unfold BudgetActionParseResourceID
  rw [show (String.mk (accountID.data ++ budgetActionResourceIDSeparator ::
        (actionID.data ++ budgetActionResourceIDSeparator :: budgetName.data))).data
      = accountID.data ++ budgetActionResourceIDSeparator ::
        (actionID.data ++ budgetActionResourceIDSeparator :: budgetName.data) from rfl]
  rw [splitChar_append _ _ _ h1, splitChar_append _ _ _ h2, splitChar_no_sep _ _ h3]
  rfl

/-- Witness for C1: the amended round-trip at a concrete identifier. -/
theorem BudgetActionResourceID_roundtrip_witness :
    BudgetActionParseResourceID
        (BudgetActionCreateResourceID ("012345678901") ("abcd1234") ("my-budget"))
      = Except.ok (("012345678901"), ("abcd1234"), ("my-budget")) :=
  BudgetActionResourceID_roundtrip ("012345678901") ("abcd1234") ("my-budget")
    (by decide) (by decide) (by decide)

/-- Claim C7: the budget_name validation does not reject every string
containing a colon or backslash.  The error message at source line 84
states the intent (such characters are not allowed), but Go MatchString
is unanchored and the pattern needs only one character outside the
class, so the three-character string with a colon in the middle is
accepted by the full validator although it contains a colon. -/
theorem validateBudgetName_accepts_colon :
    validateBudgetName ("a:b") = [] ∧ ':' ∈ ("a:b").data ∧ validateBudgetName ("a\\b") = [] :=
  ⟨rfl, by decide, rfl⟩

/-- Claim C8: the subscriber address validation does not reject strings
containing line breaks.  The error message at source line 196 states
the intent, but the regexp's outer Kleene star matches the empty string
and MatchString is unanchored, so the validator accepts every string of
admissible length, in particular a bare line-feed character. -/
theorem validateSubscriberAddress_accepts_linebreak :
    validateSubscriberAddress ("\n") = [] ∧ '\n' ∈ ("\n").data :=
  ⟨rfl, by decide⟩

/-- Claim C9: every expand helper is total on the empty configuration
list and on a list whose first element is nil: it returns nil (and no
panic) for those inputs. -/
theorem expand_helpers_total_on_empty_and_nil (rest : List GoValue) :
    expandAwsBudgetsBudgetActionActionThreshold [] = Except.ok none ∧
    expandAwsBudgetsBudgetActionActionThreshold (GoValue.nil :: rest) = Except.ok none ∧
    expandAwsBudgetsBudgetActionActionDefinition [] = Except.ok none ∧
    expandAwsBudgetsBudgetActionActionDefinition (GoValue.nil :: rest) = Except.ok none ∧
    expandAwsBudgetsBudgetActionActionScpActionDefinition [] = Except.ok none ∧
    expandAwsBudgetsBudgetActionActionScpActionDefinition (GoValue.nil :: rest) = Except.ok none ∧
    expandAwsBudgetsBudgetActionActionSsmActionDefinition [] = Except.ok none ∧
    expandAwsBudgetsBudgetActionActionSsmActionDefinition (GoValue.nil :: rest) = Except.ok none ∧
    expandAwsBudgetsBudgetActionActionIamActionDefinition [] = Except.ok none ∧
    expandAwsBudgetsBudgetActionActionIamActionDefinition (GoValue.nil :: rest) = Except.ok none :=
  ⟨rfl, rfl, rfl, rfl, rfl, rfl, rfl, rfl, rfl, rfl⟩

/-- Claim C2: during read of an existing (not new) resource a not-found
lookup result removes the resource (clearing the ID) and returns nil;
during delete a vendor NotFoundException is swallowed and nil is
returned; every other vendor error from read or delete is returned
wrapped with context around the vendor error. -/
theorem read_delete_error_dispatch (id a act b : String)
    (hid : BudgetActionParseResourceID id = Except.ok (a, act, b)) :
    (∀ partition accountid e, NotFound e = true →
      resourceAwsBudgetsBudgetActionRead id false partition accountid (Except.error e)
        = ReadResult.removed) ∧
    (∀ partition accountid isNew e, (isNew = true ∨ NotFound e = false) →
      resourceAwsBudgetsBudgetActionRead id isNew partition accountid (Except.error e)
        = ReadResult.err (GoErr.wrapped ("error reading Budget Action (" ++ id ++ ")") e)) ∧
    (∀ e, ErrCodeEquals e ErrCodeNotFoundException = true →
      resourceAwsBudgetsBudgetActionDelete id (Except.error e) = Except.ok ()) ∧
    (∀ e, ErrCodeEquals e ErrCodeNotFoundException = false →
      resourceAwsBudgetsBudgetActionDelete id (Except.error e)
        = Except.error (GoErr.wrapped ("error deleting Budget Action (" ++ id ++ ")") e)) := by
  refine ⟨?_, ?_, ?_, ?_⟩
  · intro partition accountid e he
    simp [resourceAwsBudgetsBudgetActionRead, hid, he]
  · intro partition accountid isNew e he
    rcases he with he | he
    · subst he
      simp [resourceAwsBudgetsBudgetActionRead, hid]
    · simp [resourceAwsBudgetsBudgetActionRead, hid, he]
  · intro e he
    simp [resourceAwsBudgetsBudgetActionDelete, hid, he]
  · intro e he
    simp [resourceAwsBudgetsBudgetActionDelete, hid, he]

/-- Witness for C2 at a concrete identifier and concrete errors: a
not-found error on an existing resource removes it; the same error on a
new resource, and a throttling error on delete, come back wrapped; a
NotFoundException on delete is swallowed. -/
theorem read_delete_error_dispatch_witness :
    resourceAwsBudgetsBudgetActionRead ("a/b/c") false ("aws") ("012345678901")
        (Except.error (GoErr.notFoundError ("gone"))) = ReadResult.removed ∧
    resourceAwsBudgetsBudgetActionRead ("a/b/c") true ("aws") ("012345678901")
        (Except.error (GoErr.notFoundError ("gone")))
      = ReadResult.err (GoErr.wrapped ("error reading Budget Action (a/b/c)")
          (GoErr.notFoundError ("gone"))) ∧
    resourceAwsBudgetsBudgetActionDelete ("a/b/c")
        (Except.error (GoErr.awsError ("NotFoundException") ("gone"))) = Except.ok () ∧
    resourceAwsBudgetsBudgetActionDelete ("a/b/c")
        (Except.error (GoErr.awsError ("Throttling") ("slow down")))
      = Except.error (GoErr.wrapped ("error deleting Budget Action (a/b/c)")
          (GoErr.awsError ("Throttling") ("slow down"))) :=
  ⟨(read_delete_error_dispatch ("a/b/c") ("a") ("b") ("c") rfl).1 ("aws") ("012345678901") _ rfl,
   (read_delete_error_dispatch ("a/b/c") ("a") ("b") ("c") rfl).2.1 ("aws") ("012345678901") true _
     (Or.inl rfl),
   (read_delete_error_dispatch ("a/b/c") ("a") ("b") ("c") rfl).2.2.1 _ rfl,
   (read_delete_error_dispatch ("a/b/c") ("a") ("b") ("c") rfl).2.2.2 _ rfl⟩

/-- Claim C3: for a single-element action_threshold configuration list
whose map holds a non-empty action_threshold_type string and an
action_threshold_value float, flattening the result of expanding it
returns a list equal to the original configuration list. -/
theorem actionThreshold_expand_flatten_roundtrip (t : String) (q : Rat) (ht : t ≠ "") :
    (expandAwsBudgetsBudgetActionActionThreshold
        [GoValue.map [(("action_threshold_type"), GoValue.str t),
                      (("action_threshold_value"), GoValue.float q)]]).map
      (fun th => (flattenAwsBudgetsBudgetActionActionThreshold th).map GoValue.map)
    = Except.ok [GoValue.map [(("action_threshold_type"), GoValue.str t),
                              (("action_threshold_value"), GoValue.float q)]] := by
  have hexp : expandAwsBudgetsBudgetActionActionThreshold
      [GoValue.map [(("action_threshold_type"), GoValue.str t),
                    (("action_threshold_value"), GoValue.float q)]]
      = Except.ok (some ⟨some t, some q⟩) := by
    have base : expandAwsBudgetsBudgetActionActionThreshold
        [GoValue.map [(("action_threshold_type"), GoValue.str t),
                      (("action_threshold_value"), GoValue.float q)]]
        = Except.ok (some ⟨if t ≠ "" then some t else none, some q⟩) := rfl
    rw [base, if_pos ht]
  rw [hexp]
  rfl

/-- Witness for C3 at a concrete percentage threshold. -/
theorem actionThreshold_expand_flatten_roundtrip_witness :
    (expandAwsBudgetsBudgetActionActionThreshold
        [GoValue.map [(("action_threshold_type"), GoValue.str ("PERCENTAGE")),
                      (("action_threshold_value"), GoValue.float 100)]]).map
      (fun th => (flattenAwsBudgetsBudgetActionActionThreshold th).map GoValue.map)
    = Except.ok [GoValue.map [(("action_threshold_type"), GoValue.str ("PERCENTAGE")),
                              (("action_threshold_value"), GoValue.float 100)]] :=
  actionThreshold_expand_flatten_roundtrip ("PERCENTAGE") 100 (by decide)

/-- Claim C5: the CreateBudgetAction call is retried exactly while the
returned error code is AccessDeniedException within the timeout (the
finite trace); an error with any other code is propagated at once,
wrapped with context, whatever later calls would have returned; a
success is returned as-is. -/
theorem create_retries_only_on_access_denied :
    (∀ (e : GoErr) (rest : List (Except GoErr CreateBudgetActionOutput)),
      ErrCodeEquals e ErrCodeAccessDeniedException = false →
      resourceAwsBudgetsBudgetActionCreateCall (Except.error e :: rest)
        = Except.error (GoErr.wrapped ("error creating Budget Action") e)) ∧
    (∀ (e : GoErr) (r2 : Except GoErr CreateBudgetActionOutput)
        (rest : List (Except GoErr CreateBudgetActionOutput)),
      ErrCodeEquals e ErrCodeAccessDeniedException = true →
      resourceAwsBudgetsBudgetActionCreateCall (Except.error e :: r2 :: rest)
        = resourceAwsBudgetsBudgetActionCreateCall (r2 :: rest)) ∧
    (∀ (out : CreateBudgetActionOutput) (rest : List (Except GoErr CreateBudgetActionOutput)),
      resourceAwsBudgetsBudgetActionCreateCall (Except.ok out :: rest) = Except.ok out) := by
  refine ⟨?_, ?_, ?_⟩
  · intro e rest he
    cases rest with
    | nil => simp [resourceAwsBudgetsBudgetActionCreateCall, RetryWhenAwsErrCodeEquals]
    | cons r2 rest2 => simp [resourceAwsBudgetsBudgetActionCreateCall, RetryWhenAwsErrCodeEquals, he]
  · intro e r2 rest he
    simp [resourceAwsBudgetsBudgetActionCreateCall, RetryWhenAwsErrCodeEquals, he]
  · intro out rest
    simp [resourceAwsBudgetsBudgetActionCreateCall, RetryWhenAwsErrCodeEquals]

/-- Witness for C5: a throttling error on the first call is wrapped
and not retried even though a success follows in the trace; an access
denied error is retried and the following success returned. -/
theorem create_retries_only_on_access_denied_witness :
    resourceAwsBudgetsBudgetActionCreateCall
        [Except.error (GoErr.awsError ("ThrottlingException") ("slow down")),
         Except.ok ({ actionId := some ("a"), budgetName := some ("b") })]
      = Except.error (GoErr.wrapped ("error creating Budget Action")
          (GoErr.awsError ("ThrottlingException") ("slow down"))) ∧
    resourceAwsBudgetsBudgetActionCreateCall
        [Except.error (GoErr.awsError ("AccessDeniedException") ("not yet")),
         Except.ok ({ actionId := some ("a"), budgetName := some ("b") })]
      = Except.ok ({ actionId := some ("a"), budgetName := some ("b") }) :=
  ⟨create_retries_only_on_access_denied.1 (GoErr.awsError ("ThrottlingException") ("slow down"))
     [Except.ok ({ actionId := some ("a"), budgetName := some ("b") })] rfl,
   (create_retries_only_on_access_denied.2.1 (GoErr.awsError ("AccessDeniedException") ("not yet"))
      (Except.ok ({ actionId := some ("a"), budgetName := some ("b") })) [] rfl).trans
     (create_retries_only_on_access_denied.2.2 ({ actionId := some ("a"), budgetName := some ("b") }) [])⟩

/-- Claim C10: flattening a Definition yields the empty list exactly
for a nil Definition; a non-nil Definition yields a one-element list
whose map holds a branch key exactly when that branch pointer is
non-nil, so a non-nil Definition with all branches nil yields a
one-element list holding the empty map. -/
theorem flattenDefinition_spec :
    flattenAwsBudgetsBudgetActionDefinition none = [] ∧
    (∀ d : Option Definition, flattenAwsBudgetsBudgetActionDefinition d = [] ↔ d = none) ∧
    (∀ lt : Definition, ∃ m : GoMap,
      flattenAwsBudgetsBudgetActionDefinition (some lt) = [m] ∧
      (m.lookup ("ssm_action_definition")).isSome = lt.ssmActionDefinition.isSome ∧
      (m.lookup ("iam_action_definition")).isSome = lt.iamActionDefinition.isSome ∧
      (m.lookup ("scp_action_definition")).isSome = lt.scpActionDefinition.isSome) ∧
    flattenAwsBudgetsBudgetActionDefinition (some ⟨none, none, none⟩) = [[]] := by
  refine ⟨rfl, ?_, ?_, rfl⟩
  · intro d
    cases d with
    | none => simp [flattenAwsBudgetsBudgetActionDefinition]
    | some lt =>
      obtain ⟨i, c, s⟩ := lt
      cases s <;> cases i <;> cases c <;>
        simp [flattenAwsBudgetsBudgetActionDefinition]
  · intro lt
    obtain ⟨i, c, s⟩ := lt
    cases s <;> cases i <;> cases c <;> exact ⟨_, rfl, rfl, rfl, rfl⟩

/-! Facts about the definition branches for claim C6. -/

theorem expandSsm_nil_head (rest : List GoValue) :
    expandAwsBudgetsBudgetActionActionSsmActionDefinition (GoValue.nil :: rest) = Except.ok none := rfl

theorem expandSsm_map_head (mm : GoMap) (rest : List GoValue) :
    ∃ b, expandAwsBudgetsBudgetActionActionSsmActionDefinition (GoValue.map mm :: rest)
      = Except.ok (some b) := ⟨_, rfl⟩

theorem expandScp_nil_head (rest : List GoValue) :
    expandAwsBudgetsBudgetActionActionScpActionDefinition (GoValue.nil :: rest) = Except.ok none := rfl

theorem expandScp_map_head (mm : GoMap) (rest : List GoValue) :
    ∃ b, expandAwsBudgetsBudgetActionActionScpActionDefinition (GoValue.map mm :: rest)
      = Except.ok (some b) := ⟨_, rfl⟩

theorem expandIam_nil_head (rest : List GoValue) :
    expandAwsBudgetsBudgetActionActionIamActionDefinition (GoValue.nil :: rest) = Except.ok none := rfl

theorem expandIam_map_head (mm : GoMap) (rest : List GoValue) :
    ∃ b, expandAwsBudgetsBudgetActionActionIamActionDefinition (GoValue.map mm :: rest)
      = Except.ok (some b) := ⟨_, rfl⟩

/-- A single conditional branch assignment succeeds and is populated
exactly when the branch key holds a nonempty list headed by a map,
provided the branch expander ignores nil heads and builds a struct
from map heads. -/
theorem expandDefinitionBranch_eq {β : Type} (m : GoMap) (k : String)
    (f : List GoValue → Except GoErr (Option β))
    (hnil : ∀ rest, f (GoValue.nil :: rest) = Except.ok none)
    (hmap : ∀ mm rest, ∃ b, f (GoValue.map mm :: rest) = Except.ok (some b))
    (hok : branchHeadOk m k = true) :
    ∃ r, expandDefinitionBranch m k f = Except.ok r ∧ r.isSome = branchPopulated m k := by
  unfold branchHeadOk at hok
  unfold expandDefinitionBranch branchPopulated
  cases hv : (lookupGo m k).asList with
  | none => exact ⟨none, rfl, rfl⟩
  | some v =>
    cases v with
    | nil => exact ⟨none, rfl, rfl⟩
    | cons hd tl =>
      cases hd with
      | nil => exact ⟨none, by simp [hnil tl], rfl⟩
      | map mm =>
        obtain ⟨b, hb⟩ := hmap mm tl
        exact ⟨some b, by simp [hb], rfl⟩
      | str s => rw [hv] at hok; simp at hok
      | float q => rw [hv] at hok; simp at hok
      | list l => rw [hv] at hok; simp at hok
      | set l => rw [hv] at hok; simp at hok

/-- Claim C6 (amended): for every definition configuration map whose
branch entries are shaped as the schema guarantees (each branch value,
when present and a list, is headed by nil or by a map), the expanded
Definition populates each of the three branches independently: a branch
is non-nil exactly when its configuration list is nonempty with a
non-nil first element.  A configuration with several populated branch
lists therefore yields several non-nil branches, and one with none
yields a Definition with no non-nil branch; exactly-one holds only when
exactly one branch list is populated. -/
theorem expandDefinition_branch_population (m : GoMap)
    (h1 : branchHeadOk m ("ssm_action_definition") = true)
    (h2 : branchHeadOk m ("scp_action_definition") = true)
    (h3 : branchHeadOk m ("iam_action_definition") = true) :
    ∃ d, expandAwsBudgetsBudgetActionActionDefinition [GoValue.map m] = Except.ok (some d) ∧
      d.ssmActionDefinition.isSome = branchPopulated m ("ssm_action_definition") ∧
      d.scpActionDefinition.isSome = branchPopulated m ("scp_action_definition") ∧
      d.iamActionDefinition.isSome = branchPopulated m ("iam_action_definition") := by
  obtain ⟨rs, hrs, hs⟩ := expandDefinitionBranch_eq m ("ssm_action_definition") _
    expandSsm_nil_head expandSsm_map_head h1
  obtain ⟨rc, hrc, hc⟩ := expandDefinitionBranch_eq m ("scp_action_definition") _
    expandScp_nil_head expandScp_map_head h2
  obtain ⟨ri, hri, hi⟩ := expandDefinitionBranch_eq m ("iam_action_definition") _
    expandIam_nil_head expandIam_map_head h3
  refine ⟨⟨ri, rc, rs⟩, ?_, hs, hc, hi⟩
  show (do
      let mm ← (GoValue.map m).asMap
      let ssm ← expandDefinitionBranch mm ("ssm_action_definition")
        expandAwsBudgetsBudgetActionActionSsmActionDefinition
      let scp ← expandDefinitionBranch mm ("scp_action_definition")
        expandAwsBudgetsBudgetActionActionScpActionDefinition
      let iam ← expandDefinitionBranch mm ("iam_action_definition")
        expandAwsBudgetsBudgetActionActionIamActionDefinition
      Except.ok (some (Definition.mk iam scp ssm))) = Except.ok (some ⟨ri, rc, rs⟩)
  simp only [GoValue.asMap, exceptBind_ok, hrs, hrc, hri]

/-- Witness for C6 (amended) at a concrete configuration populating
only the ssm branch. -/
theorem expandDefinition_branch_population_witness :
    ∃ d, expandAwsBudgetsBudgetActionActionDefinition
        [GoValue.map [(("ssm_action_definition"), GoValue.list
          [GoValue.map [(("action_sub_type"), GoValue.str ("STOP_EC2_INSTANCES")),
                        (("instance_ids"), GoValue.set [GoValue.str ("i-123")]),
                        (("region"), GoValue.str ("us-east-1"))]])]]
      = Except.ok (some d) ∧
      d.ssmActionDefinition.isSome
        = branchPopulated [(("ssm_action_definition"), GoValue.list
            [GoValue.map [(("action_sub_type"), GoValue.str ("STOP_EC2_INSTANCES")),
                          (("instance_ids"), GoValue.set [GoValue.str ("i-123")]),
                          (("region"), GoValue.str ("us-east-1"))]])] ("ssm_action_definition") ∧
      d.scpActionDefinition.isSome
        = branchPopulated [(("ssm_action_definition"), GoValue.list
            [GoValue.map [(("action_sub_type"), GoValue.str ("STOP_EC2_INSTANCES")),
                          (("instance_ids"), GoValue.set [GoValue.str ("i-123")]),
                          (("region"), GoValue.str ("us-east-1"))]])] ("scp_action_definition") ∧
      d.iamActionDefinition.isSome
        = branchPopulated [(("ssm_action_definition"), GoValue.list
            [GoValue.map [(("action_sub_type"), GoValue.str ("STOP_EC2_INSTANCES")),
                          (("instance_ids"), GoValue.set [GoValue.str ("i-123")]),
                          (("region"), GoValue.str ("us-east-1"))]])] ("iam_action_definition") :=
  expandDefinition_branch_population
    [(("ssm_action_definition"), GoValue.list
      [GoValue.map [(("action_sub_type"), GoValue.str ("STOP_EC2_INSTANCES")),
                    (("instance_ids"), GoValue.set [GoValue.str ("i-123")]),
                    (("region"), GoValue.str ("us-east-1"))]])]
    rfl rfl rfl

/-- Claim C6, counterexample: a configuration accepted at the interface
(the schema marks each branch list Optional, with no exclusion between
them) holding both an ssm and an scp branch list expands to a
Definition with two non-nil branches, so the expanded Definition does
not always have exactly one non-nil branch. -/
theorem expandDefinition_two_branches_cex :
    expandAwsBudgetsBudgetActionActionDefinition
        [GoValue.map
          [(("ssm_action_definition"), GoValue.list
             [GoValue.map [(("action_sub_type"), GoValue.str ("STOP_EC2_INSTANCES")),
                           (("instance_ids"), GoValue.set [GoValue.str ("i-123")]),
                           (("region"), GoValue.str ("us-east-1"))]]),
           (("scp_action_definition"), GoValue.list
             [GoValue.map [(("policy_id"), GoValue.str ("p-1")),
                           (("target_ids"), GoValue.set [GoValue.str ("t-1")])]])]]
      = Except.ok (some ⟨none,
          some ⟨some ("p-1"), some [("t-1")]⟩,
          some ⟨some ("STOP_EC2_INSTANCES"), some [("i-123")], some ("us-east-1")⟩⟩) ∧
    Definition.populatedBranchCount ⟨none,
        some ⟨some ("p-1"), some [("t-1")]⟩,
        some ⟨some ("STOP_EC2_INSTANCES"), some [("i-123")], some ("us-east-1")⟩⟩ = 2 ∧
    (2 : Nat) ≠ 1 :=
  ⟨rfl, rfl, by decide⟩

theorem isSome_if {γ : Type} (c : Bool) (x : γ) :
    (if c then some x else none).isSome = c := by cases c <;> rfl

/-- Claim C4: the update request always carries the account ID, action
ID and budget name parsed from the resource identifier, and each of the
six updatable fields is populated in the request exactly when the
corresponding configuration field changed; unchanged fields stay nil.
The hypotheses state that the identifier parses and that the three
nested configuration values are schema-shaped (their expansions
succeed, the two required single-element lists expanding non-nil). -/
theorem updateInput_frame (d : ResourceData) (a act b : String)
    (hid : BudgetActionParseResourceID d.id = Except.ok (a, act, b))
    (hth : ∃ th, expandAwsBudgetsBudgetActionActionThreshold d.actionThreshold = Except.ok (some th))
    (hdef : ∃ dd, expandAwsBudgetsBudgetActionActionDefinition d.definition = Except.ok (some dd))
    (hsub : ∃ ss, expandAwsBudgetsBudgetActionSubscriber d.subscriber = Except.ok ss) :
    ∃ input, resourceAwsBudgetsBudgetActionUpdateInput d = Except.ok input ∧
      input.accountId = some a ∧
      input.actionId = some act ∧
      input.budgetName = some b ∧
      input.actionThreshold.isSome = d.changed ("action_threshold") ∧
      input.approvalModel.isSome = d.changed ("approval_model") ∧
      input.definition.isSome = d.changed ("definition") ∧
      input.executionRoleArn.isSome = d.changed ("execution_role_arn") ∧
      input.notificationType.isSome = d.changed ("notification_type") ∧
      input.subscribers.isSome = d.changed ("subscriber") := by
  obtain ⟨th, hth⟩ := hth
  obtain ⟨dd, hdef⟩ := hdef
  obtain ⟨ss, hsub⟩ := hsub
  have e1 : (if d.changed ("action_threshold")
        then expandAwsBudgetsBudgetActionActionThreshold d.actionThreshold
        else Except.ok none)
      = Except.ok (if d.changed ("action_threshold") then some th else none) := by
    cases h : d.changed ("action_threshold") <;> simp [h, hth]
  have e2 : (if d.changed ("definition")
        then expandAwsBudgetsBudgetActionActionDefinition d.definition
        else Except.ok none)
      = Except.ok (if d.changed ("definition") then some dd else none) := by
    cases h : d.changed ("definition") <;> simp [h, hdef]
  have e3 : (if d.changed ("subscriber")
        then (match expandAwsBudgetsBudgetActionSubscriber d.subscriber with
              | Except.error e => Except.error e
              | Except.ok ss2 => Except.ok (some ss2))
        else Except.ok none)
      = Except.ok (if d.changed ("subscriber") then some ss else none) := by
    cases h : d.changed ("subscriber") <;> simp [h, hsub]
  unfold resourceAwsBudgetsBudgetActionUpdateInput
  simp only [hid, e1, e2, e3]
  exact ⟨_, rfl, rfl, rfl, rfl, isSome_if _ _, isSome_if _ _, isSome_if _ _, isSome_if _ _,
    isSome_if _ _, isSome_if _ _⟩

/-- Witness for C4 at the concrete resource data: the request carries
the parsed identifier components, the two changed fields are populated
and the four unchanged ones stay nil. -/
theorem updateInput_frame_witness :
    ∃ input, resourceAwsBudgetsBudgetActionUpdateInput sampleUpdateData = Except.ok input ∧
      input.accountId = some ("012345678901") ∧
      input.actionId = some ("abcd1234") ∧
      input.budgetName = some ("my-budget") ∧
      input.actionThreshold.isSome = false ∧
      input.approvalModel.isSome = true ∧
      input.definition.isSome = true ∧
      input.executionRoleArn.isSome = false ∧
      input.notificationType.isSome = false ∧
      input.subscribers.isSome = false :=
  updateInput_frame sampleUpdateData ("012345678901") ("abcd1234") ("my-budget") rfl
    ⟨⟨some ("PERCENTAGE"), some 100⟩, rfl⟩
    ⟨⟨none, none, some ⟨some ("STOP_EC2_INSTANCES"), some [("i-123")], some ("us-east-1")⟩⟩, rfl⟩
    ⟨[⟨some ("user@example.com"), some ("EMAIL")⟩], rfl⟩

/-- Witness for C9 at the empty tail. -/
theorem expand_helpers_total_on_empty_and_nil_witness :
    expandAwsBudgetsBudgetActionActionThreshold [] = Except.ok none ∧
    expandAwsBudgetsBudgetActionActionThreshold [GoValue.nil] = Except.ok none ∧
    expandAwsBudgetsBudgetActionActionDefinition [] = Except.ok none ∧
    expandAwsBudgetsBudgetActionActionDefinition [GoValue.nil] = Except.ok none ∧
    expandAwsBudgetsBudgetActionActionScpActionDefinition [] = Except.ok none ∧
    expandAwsBudgetsBudgetActionActionScpActionDefinition [GoValue.nil] = Except.ok none ∧
    expandAwsBudgetsBudgetActionActionSsmActionDefinition [] = Except.ok none ∧
    expandAwsBudgetsBudgetActionActionSsmActionDefinition [GoValue.nil] = Except.ok none ∧
    expandAwsBudgetsBudgetActionActionIamActionDefinition [] = Except.ok none ∧
    expandAwsBudgetsBudgetActionActionIamActionDefinition [GoValue.nil] = Except.ok none :=
  expand_helpers_total_on_empty_and_nil []

/-- Witness for C10 at a Definition with only the scp branch non-nil:
the flattened one-element map holds exactly the scp key. -/
theorem flattenDefinition_spec_witness :
    ∃ m : GoMap,
      flattenAwsBudgetsBudgetActionDefinition
          (some ⟨none, some ⟨some ("p-1"), none⟩, none⟩) = [m] ∧
      (m.lookup ("ssm_action_definition")).isSome = false ∧
      (m.lookup ("iam_action_definition")).isSome = false ∧
      (m.lookup ("scp_action_definition")).isSome = true :=
  flattenDefinition_spec.2.2.1 ⟨none, some ⟨some ("p-1"), none⟩, none⟩
